import Mathlib

/-!
Verification of the dailydose-be e-commerce backend's checkout, shipping,
discount, order-cancellation, stock-status and error-handling logic.

The definitions below are a shallow embedding of the TypeScript source:

* `src/types/order.types.ts` — valley-city list, shipping configuration,
  `isInsideValley`, `calculateShippingCost`;
* `src/controllers/product.controller.ts` — `OrderController.checkout`,
  `OrderController.updateOrderStatus`,
  `ProductController.transformProductResponse` (stock status);
* the discount controller — `DiscountController.validateCode`;
* `src/utils/customError.util.ts` and
  `src/middleware/errorHandler.middleware.ts` — error classes and the
  central error handler.

Monetary values (Prisma `Decimal` columns and JS numbers) are modelled as
rationals, timestamps as integers, and database tables as lists of rows.
JavaScript truthiness is modelled explicitly where the source relies on it:
`usageLimit` and `usedCount` are plain JS numbers (so `!usageLimit` is true
both for `null` and for `0`), while `minPurchaseAmount` /
`maxDiscountAmount` are Prisma `Decimal` objects (truthy whenever non-null,
as witnessed by the `Number(...)` conversions at every use site).
-/

namespace DailyDose

/-! ### String primitives used by the shipping logic

The source normalises a city with `city.toLowerCase().trim()` and tests
containment with JavaScript `String.prototype.includes`. Strings are
modelled as `List Char` at these call sites. -/

/-- JavaScript whitespace as relevant to `String.prototype.trim` on the
ASCII inputs appearing here. -/
def charIsSpace (c : Char) : Bool :=
  c == ' ' || c == '\t' || c == '\n' || c == '\r'

/-- Model of `String.prototype.trim`: drop leading and trailing whitespace. -/
def jsTrim (s : List Char) : List Char :=
  ((s.dropWhile charIsSpace).reverse.dropWhile charIsSpace).reverse

/-- Model of `String.prototype.toLowerCase` on the ASCII city names used by
the shipping rules. -/
def jsToLower (s : List Char) : List Char :=
  s.map Char.toLower

/-- Model of `hay.includes(needle)` from JavaScript: `needle` occurs
contiguously inside `hay` (the empty needle always occurs). -/
def jsIncludes (hay needle : List Char) : Bool :=
  match hay with
  | [] => needle.isEmpty
  | _ :: t => needle.isPrefixOf hay || jsIncludes t needle

/-- Model of `code.toUpperCase()` used when looking up discount codes. -/
def jsToUpper (s : String) : String :=
  String.mk (s.toList.map Char.toUpper)

/-! ### Shipping (src/types/order.types.ts, duplicated inline in checkout) -/

/-- `KATHMANDU_VALLEY_CITIES` from src/types/order.types.ts; the identical
literal list appears inline in `OrderController.checkout`. -/
def KATHMANDU_VALLEY_CITIES : List (List Char) :=
  ["kathmandu".toList, "lalitpur".toList, "bhaktapur".toList,
   "kirtipur".toList, "madhyapur thimi".toList, "thimi".toList]

/-- `SHIPPING_CONFIG.INSIDE_VALLEY`: Rs 100 inside the Kathmandu valley. -/
def INSIDE_VALLEY : ℚ := 100

/-- `SHIPPING_CONFIG.OUTSIDE_VALLEY`: Rs 200 outside the valley. -/
def OUTSIDE_VALLEY : ℚ := 200

/-- `SHIPPING_CONFIG.FREE_SHIPPING_THRESHOLD`: free shipping from Rs 2000. -/
def FREE_SHIPPING_THRESHOLD : ℚ := 2000

/-- The normalisation `city.toLowerCase().trim()` applied before the valley
test, both in `isInsideValley` and inline in checkout. -/
def normalizeCity (city : List Char) : List Char :=
  jsTrim (jsToLower city)

/-- `isInsideValley` from src/types/order.types.ts; `OrderController.checkout`
inlines the same computation with the same list:
`valleyCities.some(v => city.includes(v) || v.includes(city))` on the
normalised city. -/
def isInsideValley (city : List Char) : Bool :=
  KATHMANDU_VALLEY_CITIES.any fun valleyCity =>
    jsIncludes (normalizeCity city) valleyCity ||
    jsIncludes valleyCity (normalizeCity city)

/-- `calculateShippingCost` from src/types/order.types.ts;
`OrderController.checkout` computes shipping with the same branches and
constants inline. -/
def calculateShippingCost (city : List Char) (subtotal : ℚ) : ℚ :=
  if subtotal ≥ FREE_SHIPPING_THRESHOLD then 0
  else if isInsideValley city then INSIDE_VALLEY else OUTSIDE_VALLEY

/-! ### Stock status

`ProductController.transformProductResponse`, `CartController.getCart` and
`WishlistController.getWishlist` each compute the label with the identical
statement sequence: start from `"in_stock"`, overwrite with
`"out_of_stock"` when `stockQuantity === 0`, else with `"low_stock"` when
`stockQuantity <= lowStockThreshold`. -/

inductive StockStatus
  | in_stock
  | low_stock
  | out_of_stock
deriving DecidableEq, Repr

/-- The stock-status derivation shared verbatim by the product, cart and
wishlist endpoints. -/
def stockStatusOf (stockQuantity lowStockThreshold : Int) : StockStatus :=
  if stockQuantity = 0 then .out_of_stock
  else if stockQuantity ≤ lowStockThreshold then .low_stock
  else .in_stock

/-! ### Error classes and the central error handler -/

/-- The seven concrete subclasses of `CustomError` defined in
src/utils/customError.util.ts. -/
inductive CustomErrorKind
  | badRequest
  | unauthorized
  | forbidden
  | notFound
  | conflict
  | validation
  | internal
deriving DecidableEq, Repr

/-- The `statusCode` each subclass constructor passes to `CustomError`. -/
def CustomErrorKind.statusCode : CustomErrorKind → Nat
  | .badRequest => 400
  | .unauthorized => 401
  | .forbidden => 403
  | .notFound => 404
  | .conflict => 409
  | .validation => 422
  | .internal => 500

/-- The JSON body `{status: "error", message}` produced by the handler. -/
structure ErrorEnvelope where
  status : String
  message : String
deriving DecidableEq, Repr

/-- An HTTP response as produced by `res.status(code).json(body)`. -/
structure ErrorHttpResponse where
  statusCode : Nat
  body : ErrorEnvelope
deriving DecidableEq, Repr

/-- `errorHandler` from src/middleware/errorHandler.middleware.ts.
`err.statusCode || 500` and `err.message || "Internal Server Error"` use
JS truthiness, so a statusCode of `0` and an empty message also fall back
(numbers and strings are falsy at `0` and `""`). -/
def errorHandler (errStatusCode : Option Nat) (errMessage : String) :
    ErrorHttpResponse :=
  let statusCode :=
    match errStatusCode with
    | some c => if c = 0 then 500 else c
    | none => 500
  let message := if errMessage = "" then "Internal Server Error" else errMessage
  { statusCode := statusCode, body := { status := "error", message := message } }

/-! ### Discounts -/

/-- The `type` column of a discount: `"percentage"` or `"fixed"`. -/
inductive DiscountType
  | percentage
  | fixed
deriving DecidableEq, Repr

/-- A row of the `Discount` table as read by checkout and by
`DiscountController.validateCode`. `usageLimit` and `usedCount` are `Int`
columns (plain JS numbers at use sites); `minPurchaseAmount`,
`maxDiscountAmount` and `value` are `Decimal` columns (every read converts
with `Number(...)`). -/
structure Discount where
  id : Nat
  code : String
  dtype : DiscountType
  value : ℚ
  minPurchaseAmount : Option ℚ
  maxDiscountAmount : Option ℚ
  startDate : Int
  endDate : Int
  isActive : Bool
  usageLimit : Option Int
  usedCount : Int
deriving DecidableEq, Repr

/-- The validity conjunction from `OrderController.checkout`:
`isActive && now >= startDate && now <= endDate &&
(!usageLimit || usedCount < usageLimit) &&
(!minPurchaseAmount || subtotal >= Number(minPurchaseAmount))`.
`!usageLimit` is true when the column is null or `0` (number truthiness);
`!minPurchaseAmount` is true only when the column is null (a `Decimal`
object is truthy even at zero). -/
def discountIsValid (d : Discount) (now : Int) (subtotal : ℚ) : Bool :=
  d.isActive &&
  decide (d.startDate ≤ now) && decide (now ≤ d.endDate) &&
  (match d.usageLimit with
   | none => true
   | some l => l == 0 || decide (d.usedCount < l)) &&
  (match d.minPurchaseAmount with
   | none => true
   | some m => decide (m ≤ subtotal))

/-- The discount-amount computation shared by checkout and
`DiscountController.validateCode`: percentage-of-subtotal or fixed value,
capped at `maxDiscountAmount` when that column is non-null, then capped at
the subtotal. -/
def computeDiscountAmount (d : Discount) (subtotal : ℚ) : ℚ :=
  let base :=
    match d.dtype with
    | .percentage => subtotal * d.value / 100
    | .fixed => d.value
  let capped :=
    match d.maxDiscountAmount with
    | none => base
    | some m => if base > m then m else base
  if capped > subtotal then subtotal else capped

/-- `prisma.discount.findUnique({ where: { code: code.toUpperCase() } })`
over a list model of the table. -/
def findDiscountByCode (discounts : List Discount) (code : String) :
    Option Discount :=
  discounts.find? fun d => d.code == jsToUpper code

/-- Result of the discount step of checkout: the amount and the
`discountId` / `discountCode` recorded on the order. -/
structure AppliedDiscount where
  amount : ℚ
  discountId : Option Nat
  discountCode : Option String
deriving DecidableEq, Repr

/-- The `if (discountCode) { ... }` block of `OrderController.checkout`.
A missing or empty code (falsy), an unknown code, or a code failing
validation all leave `discount = 0`, `discountId = null`,
`discountCodeUsed = null` without raising an error. -/
def applyDiscountCode (discounts : List Discount) (discountCode : Option String)
    (now : Int) (subtotal : ℚ) : AppliedDiscount :=
  match discountCode with
  | none => ⟨0, none, none⟩
  | some c =>
    if c = "" then ⟨0, none, none⟩
    else
      match findDiscountByCode discounts c with
      | none => ⟨0, none, none⟩
      | some d =>
        if discountIsValid d now subtotal then
          ⟨computeDiscountAmount d subtotal, some d.id, some d.code⟩
        else ⟨0, none, none⟩

/-- Model of `Math.round(x * 100) / 100` applied to the reported amount in
`DiscountController.validateCode` (JS `Math.round` is floor of `x + 1/2`). -/
def roundTwoDecimals (x : ℚ) : ℚ :=
  (⌊x * 100 + 1 / 2⌋ : ℚ) / 100

/-- Outcome of `DiscountController.validateCode`: a thrown `CustomError`,
a `valid: false` response with its message, or a `valid: true` response
with the rounded discount amount. -/
inductive ValidateOutcome
  | err (e : CustomErrorKind)
  | invalid (message : String)
  | valid (discountAmount : ℚ)
deriving DecidableEq, Repr

/-- `DiscountController.validateCode` (discount controller, customer
endpoint `POST /discounts/validate`), step by step in source order.
`!cartSubtotal || cartSubtotal <= 0` collapses to `cartSubtotal ≤ 0` on
rationals. -/
def validateCode (discounts : List Discount) (code : String)
    (cartSubtotal : ℚ) (now : Int) : ValidateOutcome :=
  if code = "" then .err .badRequest
  else if cartSubtotal ≤ 0 then .err .badRequest
  else
    match findDiscountByCode discounts code with
    | none => .invalid "Invalid discount code"
    | some discount =>
      if !discount.isActive then
        .invalid "This discount code is no longer active"
      else if now < discount.startDate || discount.endDate < now then
        .invalid "This discount code has expired"
      else if (match discount.usageLimit with
               | none => false
               | some l => !(l == 0) && decide (l ≤ discount.usedCount)) then
        .invalid "This discount code has reached its usage limit"
      else if (match discount.minPurchaseAmount with
               | none => false
               | some m => decide (cartSubtotal < m)) then
        .invalid "Minimum purchase amount required"
      else
        .valid (roundTwoDecimals (computeDiscountAmount discount cartSubtotal))

/-! ### Database rows touched by checkout and order cancellation -/

/-- The `Product` columns read or written by checkout and cancellation. -/
structure Product where
  id : Nat
  name : String
  price : ℚ
  stockQuantity : Int
  lowStockThreshold : Int
  isActive : Bool
deriving DecidableEq, Repr

/-- A `CartItem` row for the checking-out user (the `userId_productId`
compound key of the schema makes `productId` unique per user). -/
structure CartItem where
  productId : Nat
  quantity : Nat
deriving DecidableEq, Repr

/-- An `OrderItem` row: the snapshot of a cart line taken at checkout. -/
structure OrderItem where
  productId : Nat
  price : ℚ
  quantity : Nat
  subtotal : ℚ
deriving DecidableEq, Repr

/-- The `status` column of an order (`validStatuses` in
`OrderController.updateOrderStatus`). -/
inductive OrderStatus
  | pending
  | confirmed
  | processing
  | shipped
  | delivered
  | cancelled
deriving DecidableEq, Repr

/-- The `Order` columns that checkout writes and cancellation reads. -/
structure Order where
  id : Nat
  status : OrderStatus
  subtotal : ℚ
  shippingCost : ℚ
  tax : ℚ
  discount : ℚ
  total : ℚ
  discountId : Option Nat
  discountCode : Option String
  items : List OrderItem
deriving DecidableEq, Repr

/-- The slice of the database state that checkout and order-status updates
touch, restricted to the checking-out user's cart. -/
structure DbState where
  products : List Product
  cartItems : List CartItem
  discounts : List Discount
  orders : List Order
deriving DecidableEq, Repr

/-- `prisma.product.findUnique` by id over the list model. -/
def findProduct (products : List Product) (pid : Nat) : Option Product :=
  products.find? fun p => p.id == pid

/-- The joined rows returned by
`prisma.cartItem.findMany({ include: { product: ... } })`: each cart item
together with its product. `none` models a dangling foreign key, which the
database's referential integrity rules out. -/
def cartLines (s : DbState) : Option (List (Product × Nat)) :=
  s.cartItems.mapM fun ci =>
    (findProduct s.products ci.productId).map fun p => (p, ci.quantity)

/-- The `BadRequestError`s checkout can raise after reading the cart, plus
the transaction-abort outcome. -/
inductive CheckoutError
  | emptyCart
  | productUnavailable (name : String)
  | insufficientStock (name : String)
  | danglingCartItem
  | txAborted
deriving DecidableEq, Repr

/-- The stock-availability loop of checkout: reject the first inactive
product or the first item whose quantity exceeds the product's current
stock, before any write happens. -/
def validateLines : List (Product × Nat) → Option CheckoutError
  | [] => none
  | (p, q) :: rest =>
    if !p.isActive then some (.productUnavailable p.name)
    else if p.stockQuantity < (q : Int) then some (.insufficientStock p.name)
    else validateLines rest

/-- `let subtotal = 0; cartItems.forEach(i => subtotal += price * qty)`. -/
def computeSubtotal (lines : List (Product × Nat)) : ℚ :=
  lines.foldl (fun acc pq => acc + pq.1.price * (pq.2 : ℚ)) 0

/-- One `tx.product.update` with a stock `increment`/`decrement` of
`delta`: updates the row(s) whose id matches. -/
def updateStock (products : List Product) (pid : Nat) (delta : Int) :
    List Product :=
  products.map fun p =>
    if p.id == pid then { p with stockQuantity := p.stockQuantity + delta }
    else p

/-- The per-item `decrement: item.quantity` loop of the checkout
transaction. -/
def decrementStockForLines (products : List Product)
    (lines : List (Product × Nat)) : List Product :=
  lines.foldl (fun ps pq => updateStock ps pq.1.id (-(pq.2 : Int))) products

/-- The per-item `increment: item.quantity` loop of the cancellation
transaction. -/
def restoreStockForItems (products : List Product)
    (items : List OrderItem) : List Product :=
  items.foldl (fun ps it => updateStock ps it.productId (it.quantity : Int))
    products

/-- The order-item snapshots created by the checkout transaction
(`price`, `quantity` and per-line `subtotal` copied from the joined cart
line). -/
def orderItemsOfLines (lines : List (Product × Nat)) : List OrderItem :=
  lines.map fun pq =>
    { productId := pq.1.id, price := pq.1.price, quantity := pq.2,
      subtotal := pq.1.price * (pq.2 : ℚ) }

/-- The checkout request fields that affect the modelled state: the
shipping city, the optional discount code, the clock, and whether the
database transaction commits. -/
structure CheckoutArgs where
  city : String
  discountCode : Option String
  now : Int
  txCommits : Bool
deriving DecidableEq, Repr

/-- The `tx.discount.update` with `usedCount: { increment: 1 }` executed
by the checkout transaction when a discount was applied. -/
def incrementUsage (discounts : List Discount) (discountId : Option Nat) :
    List Discount :=
  match discountId with
  | none => discounts
  | some did =>
    discounts.map fun d =>
      if d.id == did then { d with usedCount := d.usedCount + 1 } else d

/-- The `tx.discount.update` with `usedCount: { decrement: 1 }` executed
by the cancellation transaction when the order had a discount. -/
def decrementUsage (discounts : List Discount) (discountId : Option Nat) :
    List Discount :=
  match discountId with
  | none => discounts
  | some did =>
    discounts.map fun d =>
      if d.id == did then { d with usedCount := d.usedCount - 1 } else d

/-- The totals computation of `OrderController.checkout` and the
`tx.order.create` data: subtotal, shipping, discount, `tax = 0`,
`total = subtotal + shippingCost + tax - discount`. -/
def checkoutOrder (discounts : List Discount) (args : CheckoutArgs)
    (orderId : Nat) (lines : List (Product × Nat)) : Order :=
  let subtotal := computeSubtotal lines
  let shippingCost := calculateShippingCost args.city.toList subtotal
  let applied := applyDiscountCode discounts args.discountCode args.now subtotal
  let tax : ℚ := 0
  { id := orderId, status := .pending, subtotal := subtotal,
    shippingCost := shippingCost, tax := tax,
    discount := applied.amount,
    total := subtotal + shippingCost + tax - applied.amount,
    discountId := applied.discountId,
    discountCode := applied.discountCode,
    items := orderItemsOfLines lines }

/-- `OrderController.checkout` from the cart read onward (the earlier
steps only validate request-body shape and touch no modelled state).
On success it returns the created order and the new database state; every
failure leaves the state unchanged, the transaction being all-or-nothing. -/
def checkout (s : DbState) (args : CheckoutArgs) (orderId : Nat) :
    Except CheckoutError (Order × DbState) :=
  match cartLines s with
  | none => .error .danglingCartItem
  | some lines =>
    if lines.isEmpty then .error .emptyCart
    else
      match validateLines lines with
      | some e => .error e
      | none =>
        let newOrder := checkoutOrder s.discounts args orderId lines
        if !args.txCommits then .error .txAborted
        else
          .ok (newOrder,
            { products := decrementStockForLines s.products lines,
              cartItems := [],
              discounts := incrementUsage s.discounts newOrder.discountId,
              orders := s.orders ++ [newOrder] })

/-- The errors `OrderController.updateOrderStatus` can raise, plus the
transaction-abort outcome. -/
inductive UpdateStatusError
  | orderNotFound
  | alreadyCancelled
  | txAborted
deriving DecidableEq, Repr

/-- `OrderController.updateOrderStatus` after its string-validity checks
(`status` is already one of the six valid statuses here). Cancelling a
not-yet-cancelled order restores stock per item and decrements the applied
discount's `usedCount` inside one transaction; every other transition is a
plain status update. -/
def updateOrderStatus (s : DbState) (orderId : Nat) (status : OrderStatus)
    (txCommits : Bool) : Except UpdateStatusError DbState :=
  match s.orders.find? (fun o => o.id == orderId) with
  | none => .error .orderNotFound
  | some existingOrder =>
    if existingOrder.status = .cancelled ∧ status = .cancelled then
      .error .alreadyCancelled
    else if status = .cancelled ∧ existingOrder.status ≠ .cancelled then
      if !txCommits then .error .txAborted
      else
        let products' := restoreStockForItems s.products existingOrder.items
        let discounts' := decrementUsage s.discounts existingOrder.discountId
        .ok { s with
              products := products', discounts := discounts',
              orders := s.orders.map (fun o =>
                if o.id == orderId then { o with status := status } else o) }
    else
      .ok { s with
            orders := s.orders.map (fun o =>
              if o.id == orderId then { o with status := status } else o) }

/-! ### Sequences of operations (for the stock invariant) -/

/-- An API operation affecting stock: a checkout attempt or an
order-status update. A failed call leaves the state as it was. -/
inductive Op
  | doCheckout (args : CheckoutArgs) (orderId : Nat)
  | doUpdateStatus (orderId : Nat) (status : OrderStatus) (txCommits : Bool)
deriving DecidableEq, Repr

/-- Run one operation; errors (returned via `next(error)`) leave the
database unchanged. -/
def applyOp (s : DbState) : Op → DbState
  | .doCheckout args oid =>
    match checkout s args oid with
    | .ok (_, s') => s'
    | .error _ => s
  | .doUpdateStatus oid st tx =>
    match updateOrderStatus s oid st tx with
    | .ok s' => s'
    | .error _ => s

/-- Run a sequence of operations. -/
def runOps (s : DbState) (ops : List Op) : DbState :=
  ops.foldl applyOp s

/-! ### Derived quantities and supporting lemmas -/

/-- Net stock change a list of `(productId, delta)` updates applies to the
product with id `pid`. -/
def netDelta (pid : Nat) : List (Nat × Int) → Int
  | [] => 0
  | c :: cs => (if c.1 = pid then c.2 else 0) + netDelta pid cs

/-- A sequence of single-product stock updates folded left, the shape of
both per-item loops in checkout and cancellation. -/
def applyChanges (products : List Product) (cs : List (Nat × Int)) :
    List Product :=
  cs.foldl (fun ps c => updateStock ps c.1 c.2) products

/-- Total quantity of product `pid` across a list of order items. -/
def orderedQty (pid : Nat) : List OrderItem → Int
  | [] => 0
  | it :: rest =>
    (if it.productId = pid then (it.quantity : Int) else 0) + orderedQty pid rest

/-- A reachable discount row whose `usageLimit` column is 0: the create
endpoint validates only `value`, so a zero limit is storable. -/
def zeroLimitDiscount : Discount :=
  { id := 42, code := "SAVE10", dtype := .fixed, value := 10,
    minPurchaseAmount := none, maxDiscountAmount := none,
    startDate := 0, endDate := 1000, isActive := true,
    usageLimit := some 0, usedCount := 7 }

/-- The database well-formedness carried through operation sequences:
non-negative stock plus the schema's primary-key and
`userId_productId`-unique constraints. -/
def StateWf (s : DbState) : Prop :=
  (∀ p ∈ s.products, 0 ≤ p.stockQuantity) ∧
  s.products.Pairwise (fun a b => a.id ≠ b.id) ∧
  s.cartItems.Pairwise (fun a b => a.productId ≠ b.productId)

/-! ### Concrete fixtures used by the witness theorems -/

/-- A sample product row. -/
def wProduct : Product :=
  { id := 1, name := "Fish Oil", price := 500, stockQuantity := 10,
    lowStockThreshold := 2, isActive := true }

/-- A sample percentage discount with a positive usage limit. -/
def wDiscount : Discount :=
  { id := 7, code := "SAVE10", dtype := .percentage, value := 10,
    minPurchaseAmount := some 100, maxDiscountAmount := some 50,
    startDate := 0, endDate := 1000, isActive := true,
    usageLimit := some 5, usedCount := 1 }

/-- A sample pre-checkout database state: one product, one cart line of
quantity 2, one discount, no orders. -/
def wState : DbState :=
  { products := [wProduct],
    cartItems := [{ productId := 1, quantity := 2 }],
    discounts := [wDiscount], orders := [] }

/-- The joined cart lines of `wState`. -/
def wLines : List (Product × Nat) := [(wProduct, 2)]

/-- Sample checkout request: outside-valley city, no discount code. -/
def wArgs : CheckoutArgs :=
  { city := "Pokhara", discountCode := none, now := 0, txCommits := true }

/-- Sample request carrying an unknown discount code. -/
def wArgsBadCode : CheckoutArgs :=
  { city := "Pokhara", discountCode := some "BAD", now := 0,
    txCommits := true }

/-- Sample request with a whitespace-only shipping city. -/
def wArgsBlankCity : CheckoutArgs :=
  { city := "   ", discountCode := none, now := 0, txCommits := true }

/-- The order the sample checkout creates. -/
def wChkOrder : Order := checkoutOrder wState.discounts wArgs 1 wLines

/-- The database state after the sample checkout. -/
def wAfter : DbState :=
  { products := decrementStockForLines wState.products wLines,
    cartItems := [],
    discounts := incrementUsage wState.discounts wChkOrder.discountId,
    orders := wState.orders ++ [wChkOrder] }

/-- The order created when checking out with the whitespace-only city. -/
def wChkOrderBlank : Order :=
  checkoutOrder wState.discounts wArgsBlankCity 1 wLines

/-- The post-checkout state for the whitespace-only city request. -/
def wAfterBlank : DbState :=
  { products := decrementStockForLines wState.products wLines,
    cartItems := [],
    discounts := incrementUsage wState.discounts wChkOrderBlank.discountId,
    orders := wState.orders ++ [wChkOrderBlank] }

/-- An empty database state (empty cart) for the atomicity witness. -/
def wEmptyState : DbState :=
  { products := [], cartItems := [], discounts := [], orders := [] }

theorem applyChanges_eq_map (cs : List (Nat × Int)) (ps : List Product) :
    applyChanges ps cs =
      ps.map fun p =>
        { p with stockQuantity := p.stockQuantity + netDelta p.id cs } := by
  induction cs generalizing ps with
  | nil =>
    have hid : (fun p : Product =>
        { p with stockQuantity := p.stockQuantity + netDelta p.id [] }) = id := by
      funext p
      simp [netDelta]
    rw [hid, List.map_id]
    rfl
  | cons c cs ih =>
    have hstep : applyChanges ps (c :: cs) =
        applyChanges (updateStock ps c.1 c.2) cs := rfl
    rw [hstep, ih, updateStock, List.map_map]
    refine congrArg (fun f => ps.map f) (funext fun p => ?_)
    by_cases h : p.id = c.1
    · simp [Function.comp, h, netDelta, add_assoc]
    · simp only [Function.comp, netDelta]
      rw [if_neg (fun hh : c.1 = p.id => h hh.symm)]
      simp [h]

theorem decrementStock_eq_applyChanges (ps : List Product)
    (lines : List (Product × Nat)) :
    decrementStockForLines ps lines =
      applyChanges ps (lines.map fun pq => (pq.1.id, -(pq.2 : Int))) := by
  unfold decrementStockForLines applyChanges
  rw [List.foldl_map]

theorem restoreStock_eq_applyChanges (ps : List Product)
    (items : List OrderItem) :
    restoreStockForItems ps items =
      applyChanges ps (items.map fun it => (it.productId, (it.quantity : Int))) := by
  unfold restoreStockForItems applyChanges
  rw [List.foldl_map]

theorem netDelta_map_neg {α : Type} (pid : Nat) (l : List α) (k : α → Nat)
    (v : α → Int) :
    netDelta pid (l.map fun x => (k x, -(v x))) =
      -netDelta pid (l.map fun x => (k x, v x)) := by
  induction l with
  | nil => simp [netDelta]
  | cons x l ih =>
    by_cases h : k x = pid
    · simp [netDelta, h, ih]
      omega
    · simp [netDelta, h, ih]

theorem orderItems_changes (lines : List (Product × Nat)) :
    (orderItemsOfLines lines).map (fun it => (it.productId, (it.quantity : Int))) =
      lines.map fun pq => (pq.1.id, (pq.2 : Int)) := by
  unfold orderItemsOfLines
  rw [List.map_map]
  rfl

theorem restore_after_decrement (ps : List Product)
    (lines : List (Product × Nat)) :
    restoreStockForItems (decrementStockForLines ps lines)
      (orderItemsOfLines lines) = ps := by
  rw [decrementStock_eq_applyChanges, restoreStock_eq_applyChanges,
    orderItems_changes]
  simp only [applyChanges_eq_map, List.map_map]
  refine Eq.trans (congrArg (fun f => ps.map f) (funext fun p => ?_))
    (List.map_id ps)
  simp only [Function.comp]
  rw [netDelta_map_neg p.id lines (fun pq => pq.1.id) (fun pq => (pq.2 : Int))]
  rw [add_assoc, neg_add_cancel, add_zero]
  rfl

theorem decrementUsage_incrementUsage (ds : List Discount)
    (did : Option Nat) :
    decrementUsage (incrementUsage ds did) did = ds := by
  cases did with
  | none => rfl
  | some i =>
    simp only [incrementUsage, decrementUsage, List.map_map]
    refine Eq.trans (congrArg (fun f => ds.map f) (funext fun d => ?_))
      (List.map_id ds)
    by_cases h : d.id = i
    · subst h
      simp [Function.comp]
    · simp [Function.comp, h]

theorem find?_append_of_none {α : Type} (p : α → Bool) (l₁ l₂ : List α)
    (h : ∀ x ∈ l₁, p x = false) :
    (l₁ ++ l₂).find? p = l₂.find? p := by
  rw [List.find?_append]
  have h1 : l₁.find? p = none :=
    List.find?_eq_none.mpr fun x hx => by simp [h x hx]
  rw [h1]
  rfl

theorem checkout_ok_elim {s : DbState} {args : CheckoutArgs} {oid : Nat}
    {o : Order} {s' : DbState} (h : checkout s args oid = .ok (o, s')) :
    ∃ lines, cartLines s = some lines ∧ lines.isEmpty = false ∧
      validateLines lines = none ∧ args.txCommits = true ∧
      o = checkoutOrder s.discounts args oid lines ∧
      s' = { products := decrementStockForLines s.products lines,
             cartItems := [],
             discounts := incrementUsage s.discounts o.discountId,
             orders := s.orders ++ [o] } := by
  unfold checkout at h
  cases hcl : cartLines s with
  | none => rw [hcl] at h; cases h
  | some lines =>
    rw [hcl] at h
    cases hemp : lines.isEmpty with
    | true => simp [hemp] at h
    | false =>
      simp only [hemp, Bool.false_eq_true, if_false] at h
      cases hval : validateLines lines with
      | some e => rw [hval] at h; cases h
      | none =>
        rw [hval] at h
        cases htx : args.txCommits with
        | false => simp [htx] at h
        | true =>
          simp only [htx, Bool.not_true, Bool.false_eq_true, if_false,
            Except.ok.injEq, Prod.mk.injEq] at h
          obtain ⟨ho, hs⟩ := h
          exact ⟨lines, rfl, hemp, hval, rfl, ho.symm, by rw [← hs, ← ho]⟩

theorem checkout_ok_intro (s : DbState) (args : CheckoutArgs) (oid : Nat)
    (lines : List (Product × Nat)) (hcl : cartLines s = some lines)
    (hemp : lines.isEmpty = false) (hval : validateLines lines = none)
    (htx : args.txCommits = true) :
    checkout s args oid = .ok (checkoutOrder s.discounts args oid lines,
      { products := decrementStockForLines s.products lines,
        cartItems := [],
        discounts := incrementUsage s.discounts
          (checkoutOrder s.discounts args oid lines).discountId,
        orders := s.orders ++ [checkoutOrder s.discounts args oid lines] }) := by
  unfold checkout
  rw [hcl]
  simp [hemp, hval, htx]

theorem checkoutOrder_id (ds : List Discount) (args : CheckoutArgs)
    (oid : Nat) (lines : List (Product × Nat)) :
    (checkoutOrder ds args oid lines).id = oid := rfl

theorem checkoutOrder_status (ds : List Discount) (args : CheckoutArgs)
    (oid : Nat) (lines : List (Product × Nat)) :
    (checkoutOrder ds args oid lines).status = .pending := rfl

theorem checkoutOrder_subtotal (ds : List Discount) (args : CheckoutArgs)
    (oid : Nat) (lines : List (Product × Nat)) :
    (checkoutOrder ds args oid lines).subtotal = computeSubtotal lines := rfl

theorem checkoutOrder_shippingCost (ds : List Discount) (args : CheckoutArgs)
    (oid : Nat) (lines : List (Product × Nat)) :
    (checkoutOrder ds args oid lines).shippingCost =
      calculateShippingCost args.city.toList (computeSubtotal lines) := rfl

theorem checkoutOrder_tax (ds : List Discount) (args : CheckoutArgs)
    (oid : Nat) (lines : List (Product × Nat)) :
    (checkoutOrder ds args oid lines).tax = 0 := rfl

theorem checkoutOrder_discount (ds : List Discount) (args : CheckoutArgs)
    (oid : Nat) (lines : List (Product × Nat)) :
    (checkoutOrder ds args oid lines).discount =
      (applyDiscountCode ds args.discountCode args.now
        (computeSubtotal lines)).amount := rfl

theorem checkoutOrder_total (ds : List Discount) (args : CheckoutArgs)
    (oid : Nat) (lines : List (Product × Nat)) :
    (checkoutOrder ds args oid lines).total =
      computeSubtotal lines +
        calculateShippingCost args.city.toList (computeSubtotal lines) + 0 -
        (applyDiscountCode ds args.discountCode args.now
          (computeSubtotal lines)).amount := rfl

theorem checkoutOrder_discountId (ds : List Discount) (args : CheckoutArgs)
    (oid : Nat) (lines : List (Product × Nat)) :
    (checkoutOrder ds args oid lines).discountId =
      (applyDiscountCode ds args.discountCode args.now
        (computeSubtotal lines)).discountId := rfl

theorem checkoutOrder_discountCode (ds : List Discount) (args : CheckoutArgs)
    (oid : Nat) (lines : List (Product × Nat)) :
    (checkoutOrder ds args oid lines).discountCode =
      (applyDiscountCode ds args.discountCode args.now
        (computeSubtotal lines)).discountCode := rfl

theorem checkoutOrder_items (ds : List Discount) (args : CheckoutArgs)
    (oid : Nat) (lines : List (Product × Nat)) :
    (checkoutOrder ds args oid lines).items = orderItemsOfLines lines := rfl

theorem computeSubtotal_eq_sum (lines : List (Product × Nat)) :
    computeSubtotal lines = (lines.map fun pq => pq.1.price * (pq.2 : ℚ)).sum := by
  have hgen : ∀ (l : List (Product × Nat)) (a : ℚ),
      l.foldl (fun acc pq => acc + pq.1.price * (pq.2 : ℚ)) a =
        a + (l.map fun pq => pq.1.price * (pq.2 : ℚ)).sum := by
    intro l
    induction l with
    | nil => intro a; simp
    | cons x l ih => intro a; simp [ih, add_assoc]
  simpa using hgen lines 0

theorem discountIsValid_iff (d : Discount) (now : Int) (st : ℚ) :
    discountIsValid d now st = true ↔
      (d.isActive = true ∧ d.startDate ≤ now ∧ now ≤ d.endDate ∧
       (∀ l, d.usageLimit = some l → l ≠ 0 → d.usedCount < l) ∧
       (∀ m, d.minPurchaseAmount = some m → m ≤ st)) := by
  unfold discountIsValid
  cases hul : d.usageLimit with
  | none =>
    cases hmp : d.minPurchaseAmount with
    | none => simp [and_assoc]
    | some m => simp [and_assoc]
  | some l =>
    cases hmp : d.minPurchaseAmount with
    | none =>
      simp only [Bool.and_eq_true, decide_eq_true_eq, Bool.or_eq_true,
        beq_iff_eq, Option.some.injEq]
      constructor
      · rintro ⟨⟨⟨⟨ha, h1⟩, h2⟩, h3⟩, -⟩
        refine ⟨ha, h1, h2, ?_, by simp⟩
        rintro l' rfl hl'
        omega
      · rintro ⟨ha, h1, h2, h3, -⟩
        refine ⟨⟨⟨⟨ha, h1⟩, h2⟩, ?_⟩, trivial⟩
        by_cases hz : l = 0
        · exact Or.inl hz
        · exact Or.inr (h3 l rfl hz)
    | some m =>
      simp only [Bool.and_eq_true, decide_eq_true_eq, Bool.or_eq_true,
        beq_iff_eq, Option.some.injEq]
      constructor
      · rintro ⟨⟨⟨⟨ha, h1⟩, h2⟩, h3⟩, h4⟩
        refine ⟨ha, h1, h2, ?_, ?_⟩
        · rintro l' rfl hl'
          omega
        · rintro m' rfl
          exact h4
      · rintro ⟨ha, h1, h2, h3, h4⟩
        refine ⟨⟨⟨⟨ha, h1⟩, h2⟩, ?_⟩, h4 m rfl⟩
        by_cases hz : l = 0
        · exact Or.inl hz
        · exact Or.inr (h3 l rfl hz)

theorem applyDiscountCode_of_bad (ds : List Discount) (c : String)
    (now : Int) (st : ℚ) (hcne : c ≠ "")
    (hbad : findDiscountByCode ds c = none ∨
      ∃ d, findDiscountByCode ds c = some d ∧
        discountIsValid d now st = false) :
    applyDiscountCode ds (some c) now st = ⟨0, none, none⟩ := by
  simp only [applyDiscountCode]
  rcases hbad with hnone | ⟨d, hfind, hinv⟩
  · rw [if_neg hcne, hnone]
  · rw [if_neg hcne, hfind]
    simp [hinv]

theorem applyDiscountCode_of_valid (ds : List Discount) (c : String)
    (now : Int) (st : ℚ) (d : Discount) (hcne : c ≠ "")
    (hfind : findDiscountByCode ds c = some d)
    (hvalid : discountIsValid d now st = true) :
    applyDiscountCode ds (some c) now st =
      ⟨computeDiscountAmount d st, some d.id, some d.code⟩ := by
  simp only [applyDiscountCode]
  rw [if_neg hcne, hfind]
  simp [hvalid]

theorem validateCode_found_cases (ds : List Discount) (c : String) (st : ℚ)
    (now : Int) (d : Discount) (hcne : c ≠ "") (hpos : 0 < st)
    (hfind : findDiscountByCode ds c = some d) :
    (discountIsValid d now st = true ∧
      validateCode ds c st now =
        .valid (roundTwoDecimals (computeDiscountAmount d st))) ∨
    (discountIsValid d now st = false ∧
      ∃ msg, validateCode ds c st now = .invalid msg) := by
  unfold validateCode
  rw [if_neg hcne, if_neg (not_le.mpr hpos)]
  simp only [hfind]
  by_cases hv : discountIsValid d now st = true
  · left
    obtain ⟨ha, h1, h2, hus, hmin⟩ := (discountIsValid_iff d now st).mp hv
    refine ⟨hv, ?_⟩
    rw [if_neg ?c1, if_neg ?c2, if_neg ?c3, if_neg ?c4]
    case c1 => simp [ha]
    case c2 =>
      simp only [Bool.or_eq_true, decide_eq_true_eq, not_or, not_lt]
      exact ⟨h1, h2⟩
    case c3 =>
      cases hul : d.usageLimit with
      | none => simp
      | some l =>
        simp only [Bool.and_eq_true, Bool.not_eq_true', beq_eq_false_iff_ne,
          decide_eq_true_eq, not_and]
        intro hz
        exact not_le.mpr (hus l hul hz)
    case c4 =>
      cases hmp : d.minPurchaseAmount with
      | none => simp
      | some m =>
        simp only [decide_eq_true_eq, not_lt]
        exact hmin m hmp
  · right
    have hv' : discountIsValid d now st = false := by
      revert hv
      cases discountIsValid d now st <;> simp
    refine ⟨hv', ?_⟩
    split
    · exact ⟨_, rfl⟩
    · split
      · exact ⟨_, rfl⟩
      · split
        · exact ⟨_, rfl⟩
        · split
          · exact ⟨_, rfl⟩
          · next hc1 hc2 hc3 hc4 =>
            exfalso
            apply hv
            apply (discountIsValid_iff d now st).mpr
            have ha : d.isActive = true := by
              revert hc1
              cases d.isActive <;> simp
            have hdates : d.startDate ≤ now ∧ now ≤ d.endDate := by
              revert hc2
              simp only [Bool.or_eq_true, decide_eq_true_eq, not_or, not_lt]
              exact fun h => h
            refine ⟨ha, hdates.1, hdates.2, ?_, ?_⟩
            · intro l hl hz
              rw [hl] at hc3
              revert hc3
              simp only [Bool.and_eq_true, Bool.not_eq_true',
                beq_eq_false_iff_ne, decide_eq_true_eq, not_and, not_le]
              intro hc3
              exact hc3 hz
            · intro m hm
              rw [hm] at hc4
              revert hc4
              simp only [decide_eq_true_eq, not_lt]
              exact fun h => h

theorem validateCode_valid_of (ds : List Discount) (c : String) (st : ℚ)
    (now : Int) (d : Discount) (hcne : c ≠ "") (hpos : 0 < st)
    (hfind : findDiscountByCode ds c = some d)
    (hvalid : discountIsValid d now st = true) :
    validateCode ds c st now =
      .valid (roundTwoDecimals (computeDiscountAmount d st)) := by
  rcases validateCode_found_cases ds c st now d hcne hpos hfind with
    ⟨-, h⟩ | ⟨hf, -⟩
  · exact h
  · rw [hvalid] at hf
    cases hf

theorem validateCode_invalid_of (ds : List Discount) (c : String) (st : ℚ)
    (now : Int) (hcne : c ≠ "") (hpos : 0 < st)
    (hbad : findDiscountByCode ds c = none ∨
      ∃ d, findDiscountByCode ds c = some d ∧
        discountIsValid d now st = false) :
    ∃ msg, validateCode ds c st now = .invalid msg := by
  rcases hbad with hnone | ⟨d, hfind, hinv⟩
  · refine ⟨"Invalid discount code", ?_⟩
    unfold validateCode
    rw [if_neg hcne, if_neg (not_le.mpr hpos), hnone]
  · rcases validateCode_found_cases ds c st now d hcne hpos hfind with
      ⟨hv, -⟩ | ⟨-, h⟩
    · rw [hinv] at hv
      cases hv
    · exact h

/-! ### Claim theorems -/

/-- C8: for every product shaped by the product, cart and wishlist
endpoints (whose stock is non-negative), the derived label is
`out_of_stock` exactly when `stockQuantity = 0`, `low_stock` exactly when
`0 < stockQuantity ≤ lowStockThreshold`, and `in_stock` otherwise. -/
theorem stock_status_labels (q thr : Int) (hq : 0 ≤ q) :
    (stockStatusOf q thr = .out_of_stock ↔ q = 0) ∧
    (stockStatusOf q thr = .low_stock ↔ (0 < q ∧ q ≤ thr)) ∧
    (stockStatusOf q thr = .in_stock ↔ (¬q = 0 ∧ ¬(0 < q ∧ q ≤ thr))) := by
  unfold stockStatusOf
  split_ifs with h1 h2
  · refine ⟨by simp [h1], ?_, ?_⟩
    · constructor
      · intro hc; cases hc
      · intro hc; omega
    · constructor
      · intro hc; cases hc
      · intro hc; omega
  · refine ⟨?_, by simp; omega, ?_⟩
    · constructor
      · intro hc; cases hc
      · intro hc; exact absurd hc h1
    · constructor
      · intro hc; cases hc
      · intro hc; exact absurd ⟨by omega, h2⟩ hc.2
  · refine ⟨?_, ?_, by simp; omega⟩
    · constructor
      · intro hc; cases hc
      · intro hc; exact absurd hc h1
    · constructor
      · intro hc; cases hc
      · intro hc; exact absurd hc.2 h2

/-- Witness for `stock_status_labels` at stock 3, threshold 5. -/
theorem stock_status_labels_witness :
    (0 : Int) ≤ 3 ∧
    (stockStatusOf 3 5 = .out_of_stock ↔ (3 : Int) = 0) ∧
    (stockStatusOf 3 5 = .low_stock ↔ ((0 : Int) < 3 ∧ (3 : Int) ≤ 5)) ∧
    (stockStatusOf 3 5 = .in_stock ↔
      (¬(3 : Int) = 0 ∧ ¬((0 : Int) < 3 ∧ (3 : Int) ≤ 5))) :=
  ⟨by decide, stock_status_labels 3 5 (by decide)⟩

/-- C7: each of the seven `CustomError` subclasses carries one of the
status codes 400, 401, 403, 404, 409, 422, 500; the central handler
responds with exactly that code and the envelope
`{status: "error", message}`; an error without a `statusCode` is reported
as 500. -/
theorem custom_error_status_codes (k : CustomErrorKind) (m : String)
    (hm : m ≠ "") :
    (k.statusCode = 400 ∨ k.statusCode = 401 ∨ k.statusCode = 403 ∨
     k.statusCode = 404 ∨ k.statusCode = 409 ∨ k.statusCode = 422 ∨
     k.statusCode = 500) ∧
    errorHandler (some k.statusCode) m =
      { statusCode := k.statusCode,
        body := { status := "error", message := m } } ∧
    errorHandler none m =
      { statusCode := 500, body := { status := "error", message := m } } := by
  refine ⟨?_, ?_, ?_⟩
  · cases k <;> simp [CustomErrorKind.statusCode]
  · cases k <;> simp [errorHandler, CustomErrorKind.statusCode, hm]
  · simp [errorHandler, hm]

/-- Witness for `custom_error_status_codes` with a not-found error. -/
theorem custom_error_status_codes_witness :
    ("Order not found" ≠ "") ∧
    (CustomErrorKind.notFound.statusCode = 400 ∨
     CustomErrorKind.notFound.statusCode = 401 ∨
     CustomErrorKind.notFound.statusCode = 403 ∨
     CustomErrorKind.notFound.statusCode = 404 ∨
     CustomErrorKind.notFound.statusCode = 409 ∨
     CustomErrorKind.notFound.statusCode = 422 ∨
     CustomErrorKind.notFound.statusCode = 500) ∧
    errorHandler (some CustomErrorKind.notFound.statusCode) "Order not found" =
      { statusCode := CustomErrorKind.notFound.statusCode,
        body := { status := "error", message := "Order not found" } } ∧
    errorHandler none "Order not found" =
      { statusCode := 500,
        body := { status := "error", message := "Order not found" } } :=
  ⟨by decide, custom_error_status_codes .notFound "Order not found" (by decide)⟩

/-- C1: every successful checkout records subtotal equal to the sum over
the joined cart lines of unit price times quantity, tax 0, and total equal
to subtotal plus shipping cost minus discount. -/
theorem checkout_order_totals (s : DbState) (args : CheckoutArgs) (oid : Nat)
    (o : Order) (s' : DbState) (lines : List (Product × Nat))
    (h : checkout s args oid = .ok (o, s')) (hl : cartLines s = some lines) :
    o.subtotal = (lines.map fun pq => pq.1.price * (pq.2 : ℚ)).sum ∧
    o.tax = 0 ∧
    o.total = o.subtotal + o.shippingCost - o.discount := by
  obtain ⟨lines', hl', _, _, _, ho, _⟩ := checkout_ok_elim h
  rw [hl] at hl'
  obtain rfl : lines = lines' := Option.some.inj hl'
  subst ho
  refine ⟨?_, rfl, ?_⟩
  · exact computeSubtotal_eq_sum lines
  · rw [checkoutOrder_total, checkoutOrder_subtotal, checkoutOrder_shippingCost,
      checkoutOrder_discount]
    ring

/-- C2: the shipping cost on a successful checkout is 0 when the subtotal
reaches the free-shipping threshold (Rs 2000), otherwise Rs 100 when the
normalised city matches the valley allow-list by case-insensitive
substring match and Rs 200 when it does not. -/
theorem checkout_shipping_cost_spec (s : DbState) (args : CheckoutArgs)
    (oid : Nat) (o : Order) (s' : DbState) (lines : List (Product × Nat))
    (h : checkout s args oid = .ok (o, s')) (hl : cartLines s = some lines) :
    o.shippingCost =
      if FREE_SHIPPING_THRESHOLD ≤ o.subtotal then 0
      else if KATHMANDU_VALLEY_CITIES.any (fun v =>
          jsIncludes (jsTrim (jsToLower args.city.toList)) v ||
          jsIncludes v (jsTrim (jsToLower args.city.toList))) then
        INSIDE_VALLEY
      else OUTSIDE_VALLEY := by
  obtain ⟨lines', hl', _, _, _, ho, _⟩ := checkout_ok_elim h
  rw [hl] at hl'
  obtain rfl : lines = lines' := Option.some.inj hl'
  subst ho
  rw [checkoutOrder_shippingCost, checkoutOrder_subtotal]
  unfold calculateShippingCost isInsideValley normalizeCity
  rfl

/-- C5: all checkout row mutations happen inside one transaction: on any
error the caller-visible database state is exactly the pre-checkout state
(no order, unchanged products, cart and discounts), and when the
transaction does not commit, checkout reports an error. -/
theorem checkout_atomicity (s : DbState) (args : CheckoutArgs) (oid : Nat) :
    (∀ e, checkout s args oid = .error e →
      applyOp s (.doCheckout args oid) = s) ∧
    (args.txCommits = false → ∃ e, checkout s args oid = .error e) := by
  constructor
  · intro e he
    simp [applyOp, he]
  · intro htx
    unfold checkout
    cases hcl : cartLines s with
    | none => exact ⟨.danglingCartItem, rfl⟩
    | some lines =>
      by_cases hemp : lines.isEmpty
      · exact ⟨.emptyCart, by simp [hemp]⟩
      · cases hval : validateLines lines with
        | some e => exact ⟨e, by simp [hemp, hval]⟩
        | none => exact ⟨.txAborted, by simp [hemp, hval, htx]⟩

/-- C3 (amended): in both the validate-code endpoint and checkout, a
discount code found by lookup is applied exactly when it is active, the
clock lies in `[startDate, endDate]`, `usedCount` is below `usageLimit`
whenever a nonzero limit is set (a limit of 0 is falsy in JavaScript and
is treated as no limit), and the subtotal meets `minPurchaseAmount` when
one is set; the amount is value-percent of the subtotal or the fixed
value, clamped down to `maxDiscountAmount` when set and then to the
subtotal. -/
theorem discount_validation_and_amount (d : Discount) (now : Int) (st : ℚ)
    (ds : List Discount) (c : String) (hcne : c ≠ "") (hpos : 0 < st)
    (hfind : findDiscountByCode ds c = some d) :
    (discountIsValid d now st = true ↔
      (d.isActive = true ∧ d.startDate ≤ now ∧ now ≤ d.endDate ∧
       (∀ l, d.usageLimit = some l → l ≠ 0 → d.usedCount < l) ∧
       (∀ m, d.minPurchaseAmount = some m → m ≤ st))) ∧
    (computeDiscountAmount d st =
      min (match d.maxDiscountAmount with
           | none =>
             match d.dtype with
             | .percentage => st * d.value / 100
             | .fixed => d.value
           | some mx =>
             min (match d.dtype with
                  | .percentage => st * d.value / 100
                  | .fixed => d.value) mx) st) ∧
    ((validateCode ds c st now =
        .valid (roundTwoDecimals (computeDiscountAmount d st))) ↔
      discountIsValid d now st = true) ∧
    (applyDiscountCode ds (some c) now st =
      if discountIsValid d now st then
        ⟨computeDiscountAmount d st, some d.id, some d.code⟩
      else ⟨0, none, none⟩) := by
  have hmin2 : ∀ a b : ℚ, (if a > b then b else a) = min a b := by
    intro a b
    split_ifs with hab
    · exact (min_eq_right (le_of_lt hab)).symm
    · exact (min_eq_left (not_lt.mp hab)).symm
  refine ⟨discountIsValid_iff d now st, ?_, ?_, ?_⟩
  · unfold computeDiscountAmount
    cases d.maxDiscountAmount with
    | none => cases d.dtype <;> simp [hmin2]
    | some mx =>
      cases d.dtype
      · simp only [hmin2]
      · simp only [hmin2]
  · constructor
    · intro hvc
      rcases validateCode_found_cases ds c st now d hcne hpos hfind with
        ⟨hv, -⟩ | ⟨-, msg, hmsg⟩
      · exact hv
      · rw [hvc] at hmsg
        cases hmsg
    · exact validateCode_valid_of ds c st now d hcne hpos hfind
  · by_cases hv : discountIsValid d now st = true
    · rw [if_pos hv]
      exact applyDiscountCode_of_valid ds c now st d hcne hfind hv
    · have hv' : discountIsValid d now st = false := by
        revert hv
        cases discountIsValid d now st <;> simp
      rw [if_neg hv]
      exact applyDiscountCode_of_bad ds c now st hcne (Or.inr ⟨d, hfind, hv'⟩)

/-- C3 counterexample: with `usageLimit = 0` set and `usedCount = 7` (not
below the limit), both checkout and the validate-code endpoint still apply
the discount, because `!usageLimit` is true for the falsy value 0. -/
theorem discount_usage_limit_zero_counterexample :
    zeroLimitDiscount.usageLimit = some 0 ∧
    ¬(zeroLimitDiscount.usedCount < 0) ∧
    discountIsValid zeroLimitDiscount 50 500 = true ∧
    applyDiscountCode [zeroLimitDiscount] (some "save10") 50 500 =
      ⟨10, some 42, some "SAVE10"⟩ ∧
    ∃ amt, validateCode [zeroLimitDiscount] "save10" 500 50 = .valid amt :=
  ⟨rfl, by decide, by decide, by decide,
    ⟨roundTwoDecimals (computeDiscountAmount zeroLimitDiscount 500),
      validateCode_valid_of [zeroLimitDiscount] "save10" 500 50
        zeroLimitDiscount (by decide) (by norm_num) (by decide) (by decide)⟩⟩

/-- C9: when the supplied discount code is unknown or fails validation,
checkout raises no error: the order is created with `discount = 0` and no
`discountId`/`discountCode`, while the validate-code endpoint reports the
same code as not valid. -/
theorem invalid_discount_code_ignored (s : DbState) (args : CheckoutArgs)
    (oid : Nat) (c : String) (lines : List (Product × Nat))
    (hc : args.discountCode = some c) (hcne : c ≠ "")
    (hcl : cartLines s = some lines) (hemp : lines.isEmpty = false)
    (hval : validateLines lines = none) (htx : args.txCommits = true)
    (hbad : findDiscountByCode s.discounts c = none ∨
      ∃ d, findDiscountByCode s.discounts c = some d ∧
        discountIsValid d args.now (computeSubtotal lines) = false)
    (hpos : 0 < computeSubtotal lines) :
    ∃ o s', checkout s args oid = .ok (o, s') ∧
      o.discount = 0 ∧ o.discountId = none ∧ o.discountCode = none ∧
      ∃ msg, validateCode s.discounts c (computeSubtotal lines) args.now =
        .invalid msg := by
  have hadc : applyDiscountCode s.discounts args.discountCode args.now
      (computeSubtotal lines) = ⟨0, none, none⟩ := by
    rw [hc]
    exact applyDiscountCode_of_bad s.discounts c args.now
      (computeSubtotal lines) hcne hbad
  refine ⟨checkoutOrder s.discounts args oid lines, _,
    checkout_ok_intro s args oid lines hcl hemp hval htx, ?_, ?_, ?_,
    validateCode_invalid_of s.discounts c (computeSubtotal lines) args.now
      hcne hpos hbad⟩
  · rw [checkoutOrder_discount, hadc]
  · rw [checkoutOrder_discountId, hadc]
  · rw [checkoutOrder_discountCode, hadc]

/-- C10: the valley test is the bidirectional substring check of the
source, so any city whose trimmed lowercased form is a substring of some
valley name (the empty string from a whitespace-only city included) is
charged the inside-valley fee whenever the subtotal is below the
free-shipping threshold. -/
theorem valley_substring_match (s : DbState) (args : CheckoutArgs)
    (oid : Nat) (o : Order) (s' : DbState) (lines : List (Product × Nat))
    (v : List Char)
    (h : checkout s args oid = .ok (o, s')) (hcl : cartLines s = some lines)
    (hv : v ∈ KATHMANDU_VALLEY_CITIES)
    (hsub : jsIncludes v (normalizeCity args.city.toList) = true)
    (hlow : computeSubtotal lines < FREE_SHIPPING_THRESHOLD) :
    (isInsideValley args.city.toList =
      (KATHMANDU_VALLEY_CITIES.any fun valleyCity =>
        jsIncludes (normalizeCity args.city.toList) valleyCity ||
        jsIncludes valleyCity (normalizeCity args.city.toList))) ∧
    isInsideValley args.city.toList = true ∧
    o.shippingCost = INSIDE_VALLEY := by
  have hiv : isInsideValley args.city.toList = true := by
    unfold isInsideValley
    rw [List.any_eq_true]
    exact ⟨v, hv, by rw [hsub, Bool.or_true]⟩
  obtain ⟨lines', hl', _, _, _, ho, _⟩ := checkout_ok_elim h
  rw [hcl] at hl'
  obtain rfl : lines = lines' := Option.some.inj hl'
  subst ho
  refine ⟨rfl, hiv, ?_⟩
  rw [checkoutOrder_shippingCost]
  unfold calculateShippingCost
  rw [if_neg (not_le.mpr hlow), if_pos hiv]

theorem orderedQty_eq_netDelta (pid : Nat) (items : List OrderItem) :
    netDelta pid (items.map fun it => (it.productId, (it.quantity : Int))) =
      orderedQty pid items := by
  induction items with
  | nil => rfl
  | cons it rest ih => simp [netDelta, orderedQty, ih]

theorem restoreStock_eq_map (ps : List Product) (items : List OrderItem) :
    restoreStockForItems ps items =
      ps.map fun p =>
        { p with stockQuantity := p.stockQuantity + orderedQty p.id items } := by
  rw [restoreStock_eq_applyChanges, applyChanges_eq_map]
  refine congrArg (fun f => ps.map f) (funext fun p => ?_)
  rw [orderedQty_eq_netDelta]

/-- C4: cancelling an order created by checkout (its id fresh among the
pre-checkout orders) succeeds, increments each product's stock by the
total ordered quantity of that product, decrements the applied discount's
`usedCount` by one when a discount was recorded, and thereby restores
every product's `stockQuantity` and the discounts table to their
pre-checkout values. -/
theorem cancellation_reverses_checkout (s : DbState) (args : CheckoutArgs)
    (oid : Nat) (o : Order) (s' : DbState)
    (hchk : checkout s args oid = .ok (o, s'))
    (hfresh : ∀ o' ∈ s.orders, o'.id ≠ oid) :
    ∃ s'', updateOrderStatus s' oid .cancelled true = .ok s'' ∧
      s''.products = s'.products.map (fun p =>
        { p with stockQuantity := p.stockQuantity + orderedQty p.id o.items }) ∧
      (∀ did, o.discountId = some did →
        s''.discounts = s'.discounts.map fun dd =>
          if dd.id == did then { dd with usedCount := dd.usedCount - 1 }
          else dd) ∧
      (o.discountId = none → s''.discounts = s'.discounts) ∧
      s''.products = s.products ∧
      s''.discounts = s.discounts := by
  obtain ⟨lines, hcl, hemp, hval, htx, ho, hs⟩ := checkout_ok_elim hchk
  have hoid : o.id = oid := by rw [ho]; rfl
  have hstat : o.status = OrderStatus.pending := by rw [ho]; rfl
  have hfind : s'.orders.find? (fun o2 => o2.id == oid) = some o := by
    rw [hs]
    show (s.orders ++ [o]).find? (fun o2 => o2.id == oid) = some o
    rw [find?_append_of_none _ _ _
      (fun x hx => beq_eq_false_iff_ne.mpr (hfresh x hx))]
    simp [List.find?, hoid]
  have hupd : updateOrderStatus s' oid .cancelled true = .ok
      { s' with
        products := restoreStockForItems s'.products o.items,
        discounts := decrementUsage s'.discounts o.discountId,
        orders := s'.orders.map fun o2 =>
          if o2.id == oid then { o2 with status := .cancelled } else o2 } := by
    unfold updateOrderStatus
    rw [hfind]
    simp [hstat]
  refine ⟨_, hupd, ?_, ?_, ?_, ?_, ?_⟩
  · exact restoreStock_eq_map s'.products o.items
  · intro did hdid
    show decrementUsage s'.discounts o.discountId = _
    rw [hdid]
    rfl
  · intro hnone
    show decrementUsage s'.discounts o.discountId = s'.discounts
    rw [hnone]
    rfl
  · show restoreStockForItems s'.products o.items = s.products
    rw [hs]
    show restoreStockForItems (decrementStockForLines s.products lines)
      o.items = s.products
    rw [ho, checkoutOrder_items]
    exact restore_after_decrement s.products lines
  · show decrementUsage s'.discounts o.discountId = s.discounts
    rw [hs]
    show decrementUsage (incrementUsage s.discounts o.discountId)
      o.discountId = s.discounts
    exact decrementUsage_incrementUsage s.discounts o.discountId

theorem netDelta_zero_of_no_key {α : Type} (pid : Nat) (l : List α)
    (k : α → Nat) (v : α → Int) (h : ∀ x ∈ l, k x ≠ pid) :
    netDelta pid (l.map fun x => (k x, v x)) = 0 := by
  induction l with
  | nil => rfl
  | cons x rest ih =>
    simp only [List.map_cons, netDelta]
    rw [if_neg (h x (List.mem_cons_self x rest)),
      ih fun y hy => h y (List.mem_cons_of_mem x hy)]
    omega

theorem netDelta_of_nodup {α : Type} (pid : Nat) (l : List α) (k : α → Nat)
    (v : α → Int) (hnd : (l.map k).Pairwise (· ≠ ·)) :
    netDelta pid (l.map fun x => (k x, v x)) = 0 ∨
      ∃ x ∈ l, k x = pid ∧
        netDelta pid (l.map fun x => (k x, v x)) = v x := by
  induction l with
  | nil => exact Or.inl rfl
  | cons x rest ih =>
    rw [List.map_cons] at hnd
    obtain ⟨hx, hrest⟩ := List.pairwise_cons.mp hnd
    simp only [List.map_cons, netDelta]
    by_cases hkx : k x = pid
    · right
      refine ⟨x, List.mem_cons_self x rest, hkx, ?_⟩
      have hz : netDelta pid (rest.map fun x => (k x, v x)) = 0 := by
        apply netDelta_zero_of_no_key
        intro y hy hcon
        exact hx (k y) (List.mem_map_of_mem k hy) (by rw [hkx, hcon])
      rw [if_pos hkx, hz]
      omega
    · rcases ih hrest with h0 | ⟨y, hy, hky, hval⟩
      · left
        rw [if_neg hkx, h0]
        omega
      · right
        refine ⟨y, List.mem_cons_of_mem x hy, hky, ?_⟩
        rw [if_neg hkx, hval]
        omega

theorem findProduct_spec {products : List Product} {pid : Nat} {p : Product}
    (h : findProduct products pid = some p) : p.id = pid ∧ p ∈ products :=
  ⟨by simpa using List.find?_some h, List.mem_of_find?_eq_some h⟩

theorem cartLines_spec (products : List Product) (cart : List CartItem)
    (lines : List (Product × Nat))
    (h : cart.mapM (fun ci =>
        (findProduct products ci.productId).map fun p => (p, ci.quantity)) =
      some lines) :
    lines.map (fun pq => pq.1.id) = cart.map (fun ci => ci.productId) ∧
    ∀ pq ∈ lines, pq.1 ∈ products := by
  induction cart generalizing lines with
  | nil =>
    rw [List.mapM_nil] at h
    obtain rfl : [] = lines := by simpa using h
    simp
  | cons ci rest ih =>
    rw [List.mapM_cons] at h
    cases hfp : findProduct products ci.productId with
    | none => rw [hfp] at h; cases h
    | some p =>
      rw [hfp] at h
      cases hrest : rest.mapM (fun ci =>
          (findProduct products ci.productId).map fun p =>
            (p, ci.quantity)) with
      | none => rw [hrest] at h; cases h
      | some ls =>
        rw [hrest] at h
        obtain rfl : (p, ci.quantity) :: ls = lines := by simpa using h
        obtain ⟨hpid, hpmem⟩ := findProduct_spec hfp
        obtain ⟨hids, hmem⟩ := ih ls hrest
        constructor
        · rw [List.map_cons, List.map_cons, hids, hpid]
        · intro pq hpq
          rcases List.mem_cons.mp hpq with rfl | hpq'
          · exact hpmem
          · exact hmem pq hpq'

theorem validateLines_none {lines : List (Product × Nat)}
    (h : validateLines lines = none) :
    ∀ pq ∈ lines, pq.1.isActive = true ∧
      (pq.2 : Int) ≤ pq.1.stockQuantity := by
  induction lines with
  | nil => intro pq hpq; cases hpq
  | cons pq0 rest ih =>
    obtain ⟨p, q⟩ := pq0
    unfold validateLines at h
    by_cases ha : (!p.isActive) = true
    · rw [if_pos ha] at h
      cases h
    · rw [if_neg ha] at h
      by_cases hst : p.stockQuantity < (q : Int)
      · rw [if_pos hst] at h
        cases h
      · rw [if_neg hst] at h
        intro pq hpq
        rcases List.mem_cons.mp hpq with rfl | hpq'
        · refine ⟨?_, not_lt.mp hst⟩
          revert ha
          cases p.isActive <;> simp
        · exact ih h pq hpq'

theorem eq_of_pairwise_key {α : Type} {k : α → Nat} {l : List α}
    (hnd : l.Pairwise fun a b => k a ≠ k b) {a b : α}
    (ha : a ∈ l) (hb : b ∈ l) (hk : k a = k b) : a = b := by
  induction l with
  | nil => cases ha
  | cons x rest ih =>
    obtain ⟨hx, hrest⟩ := List.pairwise_cons.mp hnd
    rcases List.mem_cons.mp ha with rfl | ha'
    · rcases List.mem_cons.mp hb with rfl | hb'
      · rfl
      · exact absurd hk (hx b hb')
    · rcases List.mem_cons.mp hb with rfl | hb'
      · exact absurd hk.symm (hx a ha')
      · exact ih hrest ha' hb'

theorem decrement_nonneg (s : DbState) (lines : List (Product × Nat))
    (hcl : cartLines s = some lines) (hval : validateLines lines = none)
    (hcartnd : s.cartItems.Pairwise fun a b => a.productId ≠ b.productId)
    (hpidnd : s.products.Pairwise fun a b => a.id ≠ b.id)
    (hpos : ∀ p ∈ s.products, 0 ≤ p.stockQuantity) :
    ∀ p ∈ decrementStockForLines s.products lines, 0 ≤ p.stockQuantity := by
  rw [decrementStock_eq_applyChanges, applyChanges_eq_map]
  intro p hp
  rw [List.mem_map] at hp
  obtain ⟨q, hq, rfl⟩ := hp
  show 0 ≤ q.stockQuantity +
    netDelta q.id (lines.map fun pq => (pq.1.id, -(pq.2 : Int)))
  obtain ⟨hids, hmem⟩ := cartLines_spec s.products s.cartItems lines hcl
  have hnd : (lines.map fun pq => pq.1.id).Pairwise (· ≠ ·) := by
    rw [hids]
    exact List.pairwise_map.mpr hcartnd
  rcases netDelta_of_nodup q.id lines (fun pq => pq.1.id)
      (fun pq => -(pq.2 : Int)) hnd with h0 | ⟨x, hxmem, hxid, hxval⟩
  · rw [h0]
    simpa using hpos q hq
  · rw [hxval]
    have hx1 : x.1 ∈ s.products := hmem x hxmem
    obtain rfl : x.1 = q := eq_of_pairwise_key hpidnd hx1 hq hxid
    have hstock := (validateLines_none hval x hxmem).2
    omega

theorem orderedQty_nonneg (pid : Nat) (items : List OrderItem) :
    0 ≤ orderedQty pid items := by
  induction items with
  | nil => exact le_refl 0
  | cons it rest ih =>
    unfold orderedQty
    split_ifs <;> omega

theorem updateOrderStatus_ok_elim {s : DbState} {oid : Nat}
    {st : OrderStatus} {tx : Bool} {s' : DbState}
    (h : updateOrderStatus s oid st tx = .ok s') :
    s'.cartItems = s.cartItems ∧
    (s'.products = s.products ∨
      ∃ items, s'.products = restoreStockForItems s.products items) := by
  unfold updateOrderStatus at h
  cases hf : s.orders.find? (fun o => o.id == oid) with
  | none => rw [hf] at h; cases h
  | some ex =>
    simp only [hf] at h
    by_cases hc1 : ex.status = OrderStatus.cancelled ∧
        st = OrderStatus.cancelled
    · rw [if_pos hc1] at h
      cases h
    · rw [if_neg hc1] at h
      by_cases hc2 : st = OrderStatus.cancelled ∧
          ex.status ≠ OrderStatus.cancelled
      · rw [if_pos hc2] at h
        cases htx : tx with
        | false =>
          rw [htx] at h
          cases h
        | true =>
          rw [htx] at h
          simp only [Bool.not_true, Bool.false_eq_true, if_false,
            Except.ok.injEq] at h
          rw [← h]
          exact ⟨rfl, Or.inr ⟨ex.items, rfl⟩⟩
      · rw [if_neg hc2] at h
        simp only [Except.ok.injEq] at h
        rw [← h]
        exact ⟨rfl, Or.inl rfl⟩

theorem wf_preserved (s : DbState) (op : Op) (h : StateWf s) :
    StateWf (applyOp s op) := by
  obtain ⟨h1, h2, h3⟩ := h
  cases op with
  | doCheckout args oid =>
    cases hc : checkout s args oid with
    | error e =>
      simp only [applyOp, hc]
      exact ⟨h1, h2, h3⟩
    | ok res =>
      obtain ⟨o, s'⟩ := res
      simp only [applyOp, hc]
      obtain ⟨lines, hcl, hemp, hval, htx, ho, hs⟩ := checkout_ok_elim hc
      rw [hs]
      refine ⟨?_, ?_, ?_⟩
      · exact decrement_nonneg s lines hcl hval h3 h2 h1
      · show (decrementStockForLines s.products lines).Pairwise _
        rw [decrementStock_eq_applyChanges, applyChanges_eq_map]
        exact h2.map _ fun a b hab => hab
      · exact List.Pairwise.nil
  | doUpdateStatus oid st tx =>
    cases hu : updateOrderStatus s oid st tx with
    | error e =>
      simp only [applyOp, hu]
      exact ⟨h1, h2, h3⟩
    | ok s' =>
      simp only [applyOp, hu]
      obtain ⟨hcart, hprod⟩ := updateOrderStatus_ok_elim hu
      refine ⟨?_, ?_, ?_⟩
      · rcases hprod with heq | ⟨items, heq⟩
        · rw [heq]
          exact h1
        · rw [heq, restoreStock_eq_map]
          intro p hp
          rw [List.mem_map] at hp
          obtain ⟨q, hq, rfl⟩ := hp
          have := orderedQty_nonneg q.id items
          have := h1 q hq
          show 0 ≤ q.stockQuantity + orderedQty q.id items
          omega
      · rcases hprod with heq | ⟨items, heq⟩
        · rw [heq]
          exact h2
        · rw [heq, restoreStock_eq_map]
          exact h2.map _ fun a b hab => hab
      · rw [hcart]
        exact h3

theorem wf_runOps (s : DbState) (ops : List Op) (h : StateWf s) :
    StateWf (runOps s ops) := by
  induction ops generalizing s with
  | nil => exact h
  | cons op rest ih => exact ih (applyOp s op) (wf_preserved s op h)

/-- C6: stock never goes negative. Checkout rejects any cart line whose
quantity exceeds the product's stock before decrementing anything, and
cancellation only increments, so every sequence of checkout and
status-update operations from a state with non-negative stock (and the
schema's unique product ids and unique per-user cart product ids)
preserves non-negative stock. -/
theorem stock_never_negative (s : DbState) (ops : List Op)
    (h1 : ∀ p ∈ s.products, 0 ≤ p.stockQuantity)
    (h2 : s.products.Pairwise fun a b => a.id ≠ b.id)
    (h3 : s.cartItems.Pairwise fun a b => a.productId ≠ b.productId) :
    (∀ p ∈ (runOps s ops).products, 0 ≤ p.stockQuantity) ∧
    (∀ (args : CheckoutArgs) (oid : Nat) (lines : List (Product × Nat))
      (pq : Product × Nat), cartLines s = some lines → pq ∈ lines →
      pq.1.stockQuantity < (pq.2 : Int) →
      ∃ e, checkout s args oid = .error e) := by
  constructor
  · exact (wf_runOps s ops ⟨h1, h2, h3⟩).1
  · intro args oid lines pq hcl hpq hlt
    cases hval : validateLines lines with
    | none =>
      have := (validateLines_none hval pq hpq).2
      omega
    | some e =>
      refine ⟨e, ?_⟩
      unfold checkout
      rw [hcl]
      have hne : lines.isEmpty = false := by
        cases lines with
        | nil => cases hpq
        | cons a l => rfl
      simp [hne, hval]


/-! ### Witnesses: the theorems applied to the concrete fixtures -/

/-- Witness for `checkout_order_totals` on the sample state. -/
theorem checkout_order_totals_witness :
    checkout wState wArgs 1 = .ok (wChkOrder, wAfter) ∧
    cartLines wState = some wLines ∧
    (wChkOrder.subtotal = (wLines.map fun pq => pq.1.price * (pq.2 : ℚ)).sum ∧
     wChkOrder.tax = 0 ∧
     wChkOrder.total = wChkOrder.subtotal + wChkOrder.shippingCost -
       wChkOrder.discount) := by
  have hchk : checkout wState wArgs 1 = .ok (wChkOrder, wAfter) :=
    checkout_ok_intro wState wArgs 1 wLines (by decide) (by decide)
      (by decide) rfl
  exact ⟨hchk, by decide,
    checkout_order_totals wState wArgs 1 wChkOrder wAfter wLines hchk
      (by decide)⟩

/-- Witness for `checkout_shipping_cost_spec` on the sample state. -/
theorem checkout_shipping_cost_spec_witness :
    checkout wState wArgs 1 = .ok (wChkOrder, wAfter) ∧
    cartLines wState = some wLines ∧
    wChkOrder.shippingCost =
      (if FREE_SHIPPING_THRESHOLD ≤ wChkOrder.subtotal then 0
       else if KATHMANDU_VALLEY_CITIES.any (fun v =>
           jsIncludes (jsTrim (jsToLower wArgs.city.toList)) v ||
           jsIncludes v (jsTrim (jsToLower wArgs.city.toList))) then
         INSIDE_VALLEY
       else OUTSIDE_VALLEY) := by
  have hchk : checkout wState wArgs 1 = .ok (wChkOrder, wAfter) :=
    checkout_ok_intro wState wArgs 1 wLines (by decide) (by decide)
      (by decide) rfl
  exact ⟨hchk, by decide,
    checkout_shipping_cost_spec wState wArgs 1 wChkOrder wAfter wLines hchk
      (by decide)⟩

/-- Witness for `discount_validation_and_amount` on the sample discount. -/
theorem discount_validation_and_amount_witness :
    ("save10" ≠ "") ∧ ((0 : ℚ) < 500) ∧
    findDiscountByCode [wDiscount] "save10" = some wDiscount ∧
    ((discountIsValid wDiscount 50 500 = true ↔
      (wDiscount.isActive = true ∧ wDiscount.startDate ≤ 50 ∧
       (50 : Int) ≤ wDiscount.endDate ∧
       (∀ l, wDiscount.usageLimit = some l → l ≠ 0 →
         wDiscount.usedCount < l) ∧
       (∀ m, wDiscount.minPurchaseAmount = some m → m ≤ 500))) ∧
    (computeDiscountAmount wDiscount 500 =
      min (match wDiscount.maxDiscountAmount with
           | none =>
             match wDiscount.dtype with
             | .percentage => 500 * wDiscount.value / 100
             | .fixed => wDiscount.value
           | some mx =>
             min (match wDiscount.dtype with
                  | .percentage => 500 * wDiscount.value / 100
                  | .fixed => wDiscount.value) mx) 500) ∧
    ((validateCode [wDiscount] "save10" 500 50 =
        .valid (roundTwoDecimals (computeDiscountAmount wDiscount 500))) ↔
      discountIsValid wDiscount 50 500 = true) ∧
    (applyDiscountCode [wDiscount] (some "save10") 50 500 =
      if discountIsValid wDiscount 50 500 then
        ⟨computeDiscountAmount wDiscount 500, some wDiscount.id,
          some wDiscount.code⟩
      else ⟨0, none, none⟩)) :=
  ⟨by decide, by decide, by decide,
    discount_validation_and_amount wDiscount 50 500 [wDiscount] "save10"
      (by decide) (by decide) (by decide)⟩

/-- Witness for `cancellation_reverses_checkout`: checkout on the sample
state followed by cancellation of order 1. -/
theorem cancellation_reverses_checkout_witness :
    checkout wState wArgs 1 = .ok (wChkOrder, wAfter) ∧
    (∀ o' ∈ wState.orders, o'.id ≠ 1) ∧
    (∃ s'', updateOrderStatus wAfter 1 .cancelled true = .ok s'' ∧
      s''.products = wAfter.products.map (fun p =>
        { p with stockQuantity := p.stockQuantity +
            orderedQty p.id wChkOrder.items }) ∧
      (∀ did, wChkOrder.discountId = some did →
        s''.discounts = wAfter.discounts.map fun dd =>
          if dd.id == did then { dd with usedCount := dd.usedCount - 1 }
          else dd) ∧
      (wChkOrder.discountId = none → s''.discounts = wAfter.discounts) ∧
      s''.products = wState.products ∧
      s''.discounts = wState.discounts) := by
  have hchk : checkout wState wArgs 1 = .ok (wChkOrder, wAfter) :=
    checkout_ok_intro wState wArgs 1 wLines (by decide) (by decide)
      (by decide) rfl
  exact ⟨hchk, by decide,
    cancellation_reverses_checkout wState wArgs 1 wChkOrder wAfter hchk
      (by decide)⟩

/-- Witness for `checkout_atomicity`: checkout over an empty cart errors
and leaves the state unchanged. -/
theorem checkout_atomicity_witness :
    checkout wEmptyState wArgs 1 = .error .emptyCart ∧
    applyOp wEmptyState (.doCheckout wArgs 1) = wEmptyState :=
  ⟨rfl, (checkout_atomicity wEmptyState wArgs 1).1 .emptyCart rfl⟩

/-- Witness for `stock_never_negative` over a one-checkout sequence. -/
theorem stock_never_negative_witness :
    (∀ p ∈ wState.products, 0 ≤ p.stockQuantity) ∧
    wState.products.Pairwise (fun a b => a.id ≠ b.id) ∧
    wState.cartItems.Pairwise (fun a b => a.productId ≠ b.productId) ∧
    (∀ p ∈ (runOps wState [Op.doCheckout wArgs 1]).products,
      0 ≤ p.stockQuantity) := by
  have h2 : wState.products.Pairwise (fun a b => a.id ≠ b.id) := by
    simp [wState]
  have h3 : wState.cartItems.Pairwise
      (fun a b => a.productId ≠ b.productId) := by
    simp [wState]
  exact ⟨by decide, h2, h3,
    (stock_never_negative wState [Op.doCheckout wArgs 1] (by decide)
      h2 h3).1⟩

/-- Witness for `invalid_discount_code_ignored`: the sample state with an
unknown code. -/
theorem invalid_discount_code_ignored_witness :
    wArgsBadCode.discountCode = some "BAD" ∧
    cartLines wState = some wLines ∧
    findDiscountByCode wState.discounts "BAD" = none ∧
    0 < computeSubtotal wLines ∧
    (∃ o s', checkout wState wArgsBadCode 1 = .ok (o, s') ∧
      o.discount = 0 ∧ o.discountId = none ∧ o.discountCode = none ∧
      ∃ msg, validateCode wState.discounts "BAD" (computeSubtotal wLines)
        wArgsBadCode.now = .invalid msg) := by
  have hpos : 0 < computeSubtotal wLines := by
    norm_num [computeSubtotal, wLines, wProduct]
  exact ⟨rfl, by decide, by decide, hpos,
    invalid_discount_code_ignored wState wArgsBadCode 1 "BAD" wLines rfl
      (by decide) (by decide) (by decide) (by decide) rfl
      (Or.inl (by decide)) hpos⟩

/-- Witness for `valley_substring_match`: a whitespace-only city whose
normalised form (the empty string) is a substring of "kathmandu". -/
theorem valley_substring_match_witness :
    checkout wState wArgsBlankCity 1 = .ok (wChkOrderBlank, wAfterBlank) ∧
    cartLines wState = some wLines ∧
    "kathmandu".toList ∈ KATHMANDU_VALLEY_CITIES ∧
    jsIncludes "kathmandu".toList
      (normalizeCity wArgsBlankCity.city.toList) = true ∧
    computeSubtotal wLines < FREE_SHIPPING_THRESHOLD ∧
    ((isInsideValley wArgsBlankCity.city.toList =
      (KATHMANDU_VALLEY_CITIES.any fun valleyCity =>
        jsIncludes (normalizeCity wArgsBlankCity.city.toList) valleyCity ||
        jsIncludes valleyCity (normalizeCity wArgsBlankCity.city.toList))) ∧
    isInsideValley wArgsBlankCity.city.toList = true ∧
    wChkOrderBlank.shippingCost = INSIDE_VALLEY) := by
  have hchk : checkout wState wArgsBlankCity 1 =
      .ok (wChkOrderBlank, wAfterBlank) :=
    checkout_ok_intro wState wArgsBlankCity 1 wLines (by decide) (by decide)
      (by decide) rfl
  have hlow : computeSubtotal wLines < FREE_SHIPPING_THRESHOLD := by
    norm_num [computeSubtotal, wLines, wProduct, FREE_SHIPPING_THRESHOLD]
  exact ⟨hchk, by decide, by decide, by decide, hlow,
    valley_substring_match wState wArgsBlankCity 1 wChkOrderBlank
      wAfterBlank wLines "kathmandu".toList hchk (by decide) (by decide)
      (by decide) hlow⟩

end DailyDose
